import Mathlib

/-!
Verification of the Head & Shoulders scanner (`scripts/scan_signals.py`).

Shallow embedding conventions:
* Python floats are modelled as exact rationals (`ℚ`).
* Dates are modelled as integers (`ℤ`), ordered chronologically; only the
  order of dates matters to the analysed code.
* A row of the OHLCV table is a `Bar`; of its columns only `date`, `high`,
  `low` and `close` are read by the analysis code, so only those are kept.
* Python's `round(x, k)` on floats is modelled as exact rational rounding to
  the nearest multiple of `10^(-k)` (Mathlib's `round`, ties upward); no tie
  at the (k+1)-th decimal occurs in any concrete value checked here.
* Python `for`-loops with `break`/`continue` become structural recursion or
  `List.filter` / `List.filterMap` / `List.find?` / `List.any` over the same
  index ranges (`range(a, b)` becomes `List.range' a (b - a)` with truncated
  subtraction, which is empty exactly when `b ≤ a`, as in Python).
* I/O plumbing (`load_tickers`, `download_data`, JSON serialisation, console
  printing) is out of scope; the per-ticker body of `main` (pattern merge,
  sort, recency filter, liveness check, single-signal pick) is embedded as
  `scanTicker`.
-/

namespace ScanSignals

/-- One OHLCV session row; only the columns the analysis reads. -/
structure Bar where
  date : ℤ
  high : ℚ
  low : ℚ
  close : ℚ
deriving DecidableEq, Repr

instance : Inhabited Bar := ⟨⟨0, 0, 0, 0⟩⟩

/-- A swing point: `{'index': i, 'price': float(current), 'date': ...}`. -/
structure SwingPoint where
  index : ℕ
  price : ℚ
  date : ℤ
deriving DecidableEq, Repr

instance : Inhabited SwingPoint := ⟨⟨0, 0, 0⟩⟩

-- Scanner configuration constants (lines 26-36 of scan_signals.py).
def STOP_LOSS_PCT : ℚ := 3.5
def TAKE_PROFIT_PCT : ℚ := 9.0
def TRAILING_PCT : ℚ := 2.5
def SWING_PERIOD : ℕ := 5
def NECKLINE_WINDOW : ℕ := 20
def SHOULDER_TOL : ℚ := 0.15
def HEAD_MIN_DIFF : ℚ := 0.05

/-- `data['high'].values if find_tops else data['low'].values`. -/
def swingPrices (data : List Bar) (find_tops : Bool) : List ℚ :=
  data.map (fun b => if find_tops then b.high else b.low)

/-- The inner loop of `find_swing_points`: `is_swing` after the
`for j in range(1, period + 1)` loop (early `break` is conjunction). -/
def isSwingAt (prices : List ℚ) (period i : ℕ) (find_tops : Bool) : Bool :=
  (List.range' 1 period).all (fun j =>
    let current := prices.getD i 0
    let before := prices.getD (i - j) 0
    let after := prices.getD (i + j) 0
    if find_tops then
      !(decide (current ≤ before) || decide (current ≤ after))
    else
      !(decide (before ≤ current) || decide (after ≤ current)))

/-- `find_swing_points(data, period, find_tops)` (lines 100-124):
iterate `i` over `range(period, n - period)`, keep the swing indices in
order, and record index, price and date. -/
def find_swing_points (data : List Bar) (period : ℕ) (find_tops : Bool) :
    List SwingPoint :=
  let prices := swingPrices data find_tops
  let n := data.length
  ((List.range' period (n - period - period)).filter
      (fun i => isSwingAt prices period i find_tops)).map
    (fun i => { index := i, price := prices.getD i 0,
                date := (data.getD i default).date })

/-- A candidate Head & Shoulders pattern record (lines 164-176). -/
structure Pattern where
  type : String
  left_shoulder : SwingPoint
  head : SwingPoint
  right_shoulder : SwingPoint
  left_valley : SwingPoint
  right_valley : SwingPoint
  neckline : ℚ
  break_index : ℕ
  break_date : ℤ
  break_price : ℚ
  pattern_height : ℚ
deriving DecidableEq, Repr

/-- The geometric validity test of `detect_hs` (lines 142-149). -/
def geomValid (bearish : Bool) (ls h rs : SwingPoint) : Bool :=
  if bearish then
    decide (ls.price * (1 + HEAD_MIN_DIFF) < h.price) &&
    decide (rs.price * (1 + HEAD_MIN_DIFF) < h.price) &&
    decide (|ls.price - rs.price| / ls.price < SHOULDER_TOL)
  else
    decide (h.price < ls.price * (1 - HEAD_MIN_DIFF)) &&
    decide (h.price < rs.price * (1 - HEAD_MIN_DIFF)) &&
    decide (|ls.price - rs.price| / ls.price < SHOULDER_TOL)

/-- Whether `closes[j]` crosses the neckline in the pattern's direction:
`closes[j] < neckline` when bearish, `closes[j] > neckline` when bullish. -/
def crossesNeckline (bearish : Bool) (neckline c : ℚ) : Bool :=
  if bearish then decide (c < neckline) else decide (neckline < c)

/-- The neckline-break loop of `detect_hs` (lines 153-161):
`for j in range(rs_index + 1, search_end)` stopping at the first cross.
`fuel` counts the remaining iterations. -/
def findBreakFrom (closes : List ℚ) (bearish : Bool) (neckline : ℚ) :
    ℕ → ℕ → Option ℕ
  | _, 0 => none
  | j, fuel + 1 =>
    if crossesNeckline bearish neckline (closes.getD j 0) then some j
    else findBreakFrom closes bearish neckline (j + 1) fuel

/-- `search_end = min(rs['index'] + NECKLINE_WINDOW, len(closes))` and the
break-search loop starting at `rs['index'] + 1`. -/
def findBreak (closes : List ℚ) (bearish : Bool) (neckline : ℚ)
    (rsIndex : ℕ) : Option ℕ :=
  let search_end := min (rsIndex + NECKLINE_WINDOW) closes.length
  findBreakFrom closes bearish neckline (rsIndex + 1) (search_end - (rsIndex + 1))

/-- One iteration of the 5-window loop of `detect_hs` (lines 136-176):
geometric test, neckline computation, break search, and the appended record
(`None` when the candidate is discarded by `continue`). -/
def hsCandidate (data : List Bar) (bearish : Bool)
    (ls lv h rv rs : SwingPoint) : Option Pattern :=
  let closes := data.map Bar.close
  if geomValid bearish ls h rs then
    (findBreak closes bearish ((lv.price + rv.price) / 2) rs.index).map
      (fun j =>
        { type := if bearish then "bearish" else "bullish",
          left_shoulder := ls, head := h, right_shoulder := rs,
          left_valley := lv, right_valley := rv,
          neckline := (lv.price + rv.price) / 2, break_index := j,
          break_date := (data.getD j default).date,
          break_price := closes.getD j 0,
          pattern_height := |h.price - (lv.price + rv.price) / 2| })
  else none

/-- `detect_hs(data, bearish)` (lines 130-177): swing points of one kind,
at least 5 required, then every window `swings[i..i+4]` in order. -/
def detect_hs (data : List Bar) (bearish : Bool) : List Pattern :=
  let swings := find_swing_points data SWING_PERIOD bearish
  if swings.length < 5 then []
  else
    (List.range (swings.length - 4)).filterMap (fun i =>
      hsCandidate data bearish (swings.getD i default)
        (swings.getD (i + 1) default) (swings.getD (i + 2) default)
        (swings.getD (i + 3) default) (swings.getD (i + 4) default))

/-- The record returned by `simulate_entry` (lines 187-191). -/
structure Entry where
  entry_price : ℚ
  entry_date : ℤ
  entry_index : ℕ
deriving DecidableEq, Repr

/-- `simulate_entry(pattern, data)` (lines 183-191). -/
def simulate_entry (pattern : Pattern) (data : List Bar) : Option Entry :=
  let entry_idx := pattern.break_index + 1
  if data.length ≤ entry_idx then none
  else some { entry_price := (data.getD entry_idx default).close,
              entry_date := (data.getD entry_idx default).date,
              entry_index := entry_idx }

/-- Exact rational model of Python's `round(x, 4)`. -/
def round4 (q : ℚ) : ℚ := ((round (q * 10000) : ℤ) : ℚ) / 10000

/-- Exact rational model of Python's `round(x, 2)`. -/
def round2 (q : ℚ) : ℚ := ((round (q * 100) : ℤ) : ℚ) / 100

/-- `stop_loss = entry_price - sl_dist if is_bullish else entry_price + sl_dist`
with `sl_dist = entry_price * (STOP_LOSS_PCT / 100)` (lines 200-202). -/
def sigStopLoss (entry_price : ℚ) (is_bullish : Bool) : ℚ :=
  let sl_dist := entry_price * (STOP_LOSS_PCT / 100)
  if is_bullish then entry_price - sl_dist else entry_price + sl_dist

/-- `take_profit = entry_price + tp_dist if is_bullish else entry_price - tp_dist`
with `tp_dist = entry_price * (TAKE_PROFIT_PCT / 100)` (lines 201-203). -/
def sigTakeProfit (entry_price : ℚ) (is_bullish : Bool) : ℚ :=
  let tp_dist := entry_price * (TAKE_PROFIT_PCT / 100)
  if is_bullish then entry_price + tp_dist else entry_price - tp_dist

/-- The signal record built by `generate_signal` (lines 207-226). -/
structure Signal where
  symbol : String
  ticker : String
  signal_type : String
  entry_price : ℚ
  stop_loss : ℚ
  take_profit : ℚ
  neckline : ℚ
  pattern_height : ℚ
  height_pct : ℚ
  confidence : String
  break_date : ℤ
  entry_date : ℤ
  head_price : ℚ
  ls_price : ℚ
  rs_price : ℚ
  sl_pct : ℚ
  tp_pct : ℚ
  trailing_pct : ℚ
deriving DecidableEq, Repr

/-- `generate_signal(ticker, pattern, entry)` (lines 197-226); date fields
keep the embedded `ℤ` dates (`strftime` is formatting only). -/
def generate_signal (ticker : String) (pattern : Pattern) (entry : Entry) :
    Signal :=
  let entry_price := entry.entry_price
  let is_bullish := pattern.type == "bullish"
  let signal_type := if is_bullish then "BUY" else "SELL"
  let height_pct := pattern.pattern_height / pattern.head.price * 100
  let confidence := if 5 < height_pct then "high" else "medium"
  { symbol := ticker.replace ".MI" "",
    ticker := ticker,
    signal_type := signal_type,
    entry_price := round4 entry_price,
    stop_loss := round4 (sigStopLoss entry_price is_bullish),
    take_profit := round4 (sigTakeProfit entry_price is_bullish),
    neckline := round4 pattern.neckline,
    pattern_height := round4 pattern.pattern_height,
    height_pct := round2 height_pct,
    confidence := confidence,
    break_date := pattern.break_date,
    entry_date := entry.entry_date,
    head_price := round4 pattern.head.price,
    ls_price := round4 pattern.left_shoulder.price,
    rs_price := round4 pattern.right_shoulder.price,
    sl_pct := STOP_LOSS_PCT,
    tp_pct := TAKE_PROFIT_PCT,
    trailing_pct := TRAILING_PCT }

/-- The stop level of the liveness check in `main`, line 279:
`sl = entry_price * (1 - SL/100) if is_bullish else entry_price * (1 + SL/100)`. -/
def mainStopLevel (entry_price : ℚ) (is_bullish : Bool) : ℚ :=
  if is_bullish then entry_price * (1 - STOP_LOSS_PCT / 100)
  else entry_price * (1 + STOP_LOSS_PCT / 100)

/-- The target level of the liveness check in `main`, line 280. -/
def mainTpLevel (entry_price : ℚ) (is_bullish : Bool) : ℚ :=
  if is_bullish then entry_price * (1 + TAKE_PROFIT_PCT / 100)
  else entry_price * (1 - TAKE_PROFIT_PCT / 100)

/-- The `already_closed` replay loop of `main` (lines 282-292):
`for idx in range(entry_index + 1, len(df))`, early `break` on either exit
condition (so the loop computes an existential). -/
def alreadyClosed (data : List Bar) (entry_index : ℕ) (entry_price : ℚ)
    (is_bullish : Bool) : Bool :=
  let sl := mainStopLevel entry_price is_bullish
  let tp := mainTpLevel entry_price is_bullish
  (List.range' (entry_index + 1) (data.length - (entry_index + 1))).any
    (fun idx =>
      let close := (data.getD idx default).close
      if is_bullish then decide (close ≤ sl) || decide (tp ≤ close)
      else decide (sl ≤ close) || decide (close ≤ tp))

/-- The sort key of `main`, line 263: descending `break_date`
(`sort(key=..., reverse=True)`). -/
def byBreakDateDesc (p q : Pattern) : Bool := decide (q.break_date ≤ p.break_date)

/-- The per-pattern walk of `main` (lines 265-301): skip stale breaks, skip
missing entries, skip already-closed trades, and stop at the first signal. -/
def pickSignal (ticker : String) (data : List Bar) (recent_cutoff : ℤ) :
    List Pattern → Option Signal
  | [] => none
  | p :: rest =>
    if p.break_date < recent_cutoff then
      pickSignal ticker data recent_cutoff rest
    else
      match simulate_entry p data with
      | none => pickSignal ticker data recent_cutoff rest
      | some entry =>
        if alreadyClosed data entry.entry_index entry.entry_price
            (p.type == "bullish") then
          pickSignal ticker data recent_cutoff rest
        else some (generate_signal ticker p entry)

/-- The per-ticker body of `main` (lines 248-301): skip short histories,
merge bearish and bullish candidates, sort by `break_date` descending
(Python's stable sort; `List.mergeSort` is also stable), then pick at most
one signal. -/
def scanTicker (ticker : String) (data : List Bar) (recent_cutoff : ℤ) :
    Option Signal :=
  if data.length < 50 then none
  else
    pickSignal ticker data recent_cutoff
      ((detect_hs data true ++ detect_hs data false).mergeSort byBreakDateDesc)

/-- Qualification predicate implicit in the walk of `main`: recent break,
entry exists, trade not already closed. -/
def qualifies (data : List Bar) (recent_cutoff : ℤ) (p : Pattern) : Prop :=
  ¬ p.break_date < recent_cutoff ∧
  ∃ e, simulate_entry p data = some e ∧
    alreadyClosed data e.entry_index e.entry_price (p.type == "bullish") = false

instance (data : List Bar) (c : ℤ) (p : Pattern) :
    Decidable (qualifies data c p) := by
  unfold qualifies
  cases h : simulate_entry p data with
  | none => exact decidable_of_iff (¬ p.break_date < c ∧ False) (by simp [h])
  | some e =>
    exact decidable_of_iff (¬ p.break_date < c ∧
      alreadyClosed data e.entry_index e.entry_price (p.type == "bullish") = false)
      (by simp [h])

/-!
Concrete test series used as witnesses: 70 sessions, flat at high 10 with
five isolated spikes in the `high` column (swing tops at indices 5, 15, 25,
35, 45 forming shoulder 100 / valley 50 / head 120 / valley 50 / shoulder
100), flat lows, and closes at 60 except a neckline-breaking close of 40 at
session 47.
-/

def exHigh (i : ℕ) : ℚ :=
  if i = 5 then 100 else if i = 15 then 50 else if i = 25 then 120
  else if i = 35 then 50 else if i = 45 then 100 else 10

def exClose (i : ℕ) : ℚ := if i = 47 then 40 else 60

def exData : List Bar :=
  (List.range 70).map (fun (i : ℕ) =>
    { date := (i : ℤ), high := exHigh i, low := 1, close := exClose i })

/-- The single bearish pattern that `detect_hs` finds in `exData`. -/
def exPattern : Pattern :=
  { type := "bearish",
    left_shoulder := ⟨5, 100, 5⟩, head := ⟨25, 120, 25⟩,
    right_shoulder := ⟨45, 100, 45⟩, left_valley := ⟨15, 50, 15⟩,
    right_valley := ⟨35, 50, 35⟩, neckline := 50, break_index := 47,
    break_date := 47, break_price := 40, pattern_height := 70 }

/-- The entry simulated for `exPattern` on `exData`. -/
def exEntry : Entry := ⟨60, 48, 48⟩

/-- A bullish pattern record matching the spec's round-trip example
(head 90, shoulders 100, neckline 105, height 15). -/
def rtPattern : Pattern :=
  { type := "bullish",
    left_shoulder := ⟨10, 100, 10⟩, head := ⟨30, 90, 30⟩,
    right_shoulder := ⟨50, 100, 50⟩, left_valley := ⟨20, 105, 20⟩,
    right_valley := ⟨40, 105, 40⟩, neckline := 105, break_index := 52,
    break_date := 52, break_price := 107, pattern_height := 15 }

/-- The round-trip example entry: session 53, close 108. -/
def rtEntry : Entry := ⟨108, 53, 53⟩

/-- An entry whose price has more than four decimals of precision after the
stop-loss multiplication (0.001 * 0.965 = 0.000965). -/
def tinyEntry : Entry := ⟨1/1000, 53, 53⟩

/-! ### Helper lemmas about the swing detector -/

theorem isSwingAt_iff (prices : List ℚ) (period i : ℕ) (ft : Bool) :
    isSwingAt prices period i ft = true ↔
      ∀ j, 1 ≤ j → j ≤ period →
        (if ft then
          prices.getD (i - j) 0 < prices.getD i 0 ∧
          prices.getD (i + j) 0 < prices.getD i 0
        else
          prices.getD i 0 < prices.getD (i - j) 0 ∧
          prices.getD i 0 < prices.getD (i + j) 0) := by
  unfold isSwingAt
  rw [List.all_eq_true]
  cases ft <;>
    simp only [List.mem_range'_1, if_true, if_false, Bool.not_or,
      Bool.and_eq_true, Bool.not_eq_true', decide_eq_false_iff_not, not_le,
      and_imp, Bool.false_eq_true, Bool.true_eq_false] <;>
  · constructor
    · intro hall j h1 h2
      exact hall j h1 (by omega)
    · intro hall j h1 h2
      exact hall j h1 (by omega)

theorem mem_find_swing_points_index (data : List Bar) (period : ℕ) (ft : Bool)
    (i : ℕ) :
    (∃ sp ∈ find_swing_points data period ft, sp.index = i) ↔
      (period ≤ i ∧ i + period < data.length ∧
        isSwingAt (swingPrices data ft) period i ft = true) := by
  unfold find_swing_points
  constructor
  · rintro ⟨sp, hsp, hidx⟩
    obtain ⟨j, hj, rfl⟩ := List.mem_map.mp hsp
    obtain ⟨hjr, hjs⟩ := List.mem_filter.mp hj
    obtain ⟨h1, h2⟩ := List.mem_range'_1.mp hjr
    have hji : j = i := hidx
    subst hji
    exact ⟨h1, by omega, hjs⟩
  · rintro ⟨h1, h2, hs⟩
    refine ⟨_, List.mem_map.mpr ⟨i, List.mem_filter.mpr
      ⟨List.mem_range'_1.mpr ⟨h1, by omega⟩, hs⟩, rfl⟩, rfl⟩

theorem find_swing_points_fields (data : List Bar) (period : ℕ) (ft : Bool) :
    ∀ sp ∈ find_swing_points data period ft,
      sp.price = (swingPrices data ft).getD sp.index 0 ∧
      sp.date = (data.getD sp.index default).date ∧
      period ≤ sp.index ∧ sp.index + period < data.length ∧
      isSwingAt (swingPrices data ft) period sp.index ft = true := by
  intro sp hsp
  unfold find_swing_points at hsp
  obtain ⟨j, hj, rfl⟩ := List.mem_map.mp hsp
  obtain ⟨hjr, hjs⟩ := List.mem_filter.mp hj
  obtain ⟨h1, h2⟩ := List.mem_range'_1.mp hjr
  refine ⟨rfl, rfl, h1, ?_, hjs⟩
  show j + period < data.length
  omega

theorem find_swing_points_pairwise (data : List Bar) (period : ℕ) (ft : Bool) :
    (find_swing_points data period ft).Pairwise
      (fun a b => a.index < b.index) := by
  unfold find_swing_points
  rw [List.pairwise_map]
  exact (List.pairwise_lt_range' _ _).filter _

/-- `getD` through `map` at an in-range index. -/
theorem getD_map_of_lt {α β : Type} [Inhabited α] (f : α → β) (l : List α)
    (i : ℕ) (d : β) (h : i < l.length) :
    (l.map f).getD i d = f (l.getD i default) := by
  rw [List.getD_eq_getElem?_getD, List.getD_eq_getElem?_getD,
    List.getElem?_map, List.getElem?_eq_getElem h]
  simp

/-! ### Helper lemmas about the break search and pattern detector -/

theorem findBreakFrom_eq_some (closes : List ℚ) (b : Bool) (neck : ℚ) :
    ∀ fuel j k, findBreakFrom closes b neck j fuel = some k →
      j ≤ k ∧ k < j + fuel ∧
      crossesNeckline b neck (closes.getD k 0) = true ∧
      ∀ m, j ≤ m → m < k → crossesNeckline b neck (closes.getD m 0) = false := by
  intro fuel
  induction fuel with
  | zero => intro j k h; simp [findBreakFrom] at h
  | succ n ih =>
    intro j k h
    unfold findBreakFrom at h
    by_cases hc : crossesNeckline b neck (closes.getD j 0) = true
    · rw [if_pos hc] at h
      obtain rfl : j = k := Option.some_injective _ h
      exact ⟨le_refl j, by omega, hc, fun m h1 h2 => absurd (by omega) h1.not_lt⟩
    · rw [if_neg hc] at h
      obtain ⟨h1, h2, h3, h4⟩ := ih (j + 1) k h
      refine ⟨by omega, by omega, h3, fun m hm1 hm2 => ?_⟩
      rcases eq_or_lt_of_le hm1 with rfl | hlt
      · exact Bool.not_eq_true _ ▸ (by simpa using hc)
      · exact h4 m (by omega) hm2

theorem findBreakFrom_eq_none (closes : List ℚ) (b : Bool) (neck : ℚ) :
    ∀ fuel j, findBreakFrom closes b neck j fuel = none ↔
      ∀ m, j ≤ m → m < j + fuel →
        crossesNeckline b neck (closes.getD m 0) = false := by
  intro fuel
  induction fuel with
  | zero =>
    intro j
    simp only [findBreakFrom]
    exact ⟨fun _ m h1 h2 => absurd h2 (by omega), fun _ => trivial⟩
  | succ n ih =>
    intro j
    unfold findBreakFrom
    by_cases hc : crossesNeckline b neck (closes.getD j 0) = true
    · rw [if_pos hc]
      constructor
      · intro hfalse; exact absurd hfalse (by simp)
      · intro hall
        have h2 := hall j le_rfl (by omega)
        rw [hc] at h2
        exact Bool.noConfusion h2
    · rw [if_neg hc]
      rw [ih (j + 1)]
      constructor
      · intro hall m h1 h2
        rcases eq_or_lt_of_le h1 with rfl | hlt
        · simpa using hc
        · exact hall m (by omega) (by omega)
      · intro hall m h1 h2
        exact hall m (by omega) (by omega)

theorem hsCandidate_eq_some {data : List Bar} {bearish : Bool}
    {ls lv h rv rs : SwingPoint} {p : Pattern}
    (hc : hsCandidate data bearish ls lv h rv rs = some p) :
    geomValid bearish ls h rs = true ∧
    p.type = (if bearish then "bearish" else "bullish") ∧
    p.left_shoulder = ls ∧ p.head = h ∧ p.right_shoulder = rs ∧
    p.left_valley = lv ∧ p.right_valley = rv ∧
    p.neckline = (lv.price + rv.price) / 2 ∧
    findBreak (data.map Bar.close) bearish ((lv.price + rv.price) / 2)
      rs.index = some p.break_index ∧
    p.break_date = (data.getD p.break_index default).date ∧
    p.break_price = (data.map Bar.close).getD p.break_index 0 ∧
    p.pattern_height = |h.price - (lv.price + rv.price) / 2| := by
  unfold hsCandidate at hc
  by_cases hg : geomValid bearish ls h rs = true
  · rw [if_pos hg] at hc
    obtain ⟨j, hb, hf⟩ := Option.map_eq_some'.mp hc
    obtain rfl := hf.symm
    exact ⟨hg, rfl, rfl, rfl, rfl, rfl, rfl, rfl, hb, rfl, rfl, rfl⟩
  · rw [if_neg hg] at hc
    exact absurd hc (by simp)

theorem mem_detect_hs {data : List Bar} {bearish : Bool} {p : Pattern}
    (hp : p ∈ detect_hs data bearish) :
    ∃ i, i + 4 < (find_swing_points data SWING_PERIOD bearish).length ∧
      hsCandidate data bearish
        ((find_swing_points data SWING_PERIOD bearish).getD i default)
        ((find_swing_points data SWING_PERIOD bearish).getD (i + 1) default)
        ((find_swing_points data SWING_PERIOD bearish).getD (i + 2) default)
        ((find_swing_points data SWING_PERIOD bearish).getD (i + 3) default)
        ((find_swing_points data SWING_PERIOD bearish).getD (i + 4) default)
        = some p := by
  unfold detect_hs at hp
  by_cases hlen : (find_swing_points data SWING_PERIOD bearish).length < 5
  · rw [if_pos hlen] at hp; exact absurd hp (List.not_mem_nil p)
  · rw [if_neg hlen] at hp
    obtain ⟨i, hi, hc⟩ := List.mem_filterMap.mp hp
    exact ⟨i, by have := List.mem_range.mp hi; omega, hc⟩

/-! ### Helper lemmas about the liveness check and the per-ticker walk -/

theorem alreadyClosed_eq_true_iff (data : List Bar) (entry_index : ℕ)
    (entry_price : ℚ) (is_bullish : Bool) :
    alreadyClosed data entry_index entry_price is_bullish = true ↔
      ∃ idx, entry_index < idx ∧ idx < data.length ∧
        (if is_bullish then
          (data.getD idx default).close ≤ mainStopLevel entry_price is_bullish ∨
          mainTpLevel entry_price is_bullish ≤ (data.getD idx default).close
        else
          mainStopLevel entry_price is_bullish ≤ (data.getD idx default).close ∨
          (data.getD idx default).close ≤ mainTpLevel entry_price is_bullish) := by
  unfold alreadyClosed
  rw [List.any_eq_true]
  constructor
  · rintro ⟨idx, hmem, hcond⟩
    obtain ⟨h1, h2⟩ := List.mem_range'_1.mp hmem
    refine ⟨idx, by omega, by omega, ?_⟩
    cases is_bullish <;> simpa using hcond
  · rintro ⟨idx, h1, h2, hcond⟩
    refine ⟨idx, List.mem_range'_1.mpr ⟨by omega, by omega⟩, ?_⟩
    cases is_bullish <;> simpa using hcond

theorem pickSignal_eq_some (ticker : String) (data : List Bar)
    (recent_cutoff : ℤ) :
    ∀ l s, pickSignal ticker data recent_cutoff l = some s →
      ∃ l₁ p l₂, l = l₁ ++ p :: l₂ ∧
        (∀ q ∈ l₁, ¬ qualifies data recent_cutoff q) ∧
        qualifies data recent_cutoff p ∧
        ∃ e, simulate_entry p data = some e ∧
          s = generate_signal ticker p e := by
  intro l
  induction l with
  | nil => intro s h; simp [pickSignal] at h
  | cons p rest ih =>
    intro s h
    unfold pickSignal at h
    by_cases hd : p.break_date < recent_cutoff
    · rw [if_pos hd] at h
      obtain ⟨l₁, q, l₂, rfl, hl₁, hq, he⟩ := ih s h
      exact ⟨p :: l₁, q, l₂, rfl,
        fun r hr => by
          rcases List.mem_cons.mp hr with rfl | hr'
          · exact fun hql => hql.1 hd
          · exact hl₁ r hr',
        hq, he⟩
    · rw [if_neg hd] at h
      rcases hent : simulate_entry p data with _ | e
      · rw [hent] at h
        obtain ⟨l₁, q, l₂, rfl, hl₁, hq, he⟩ := ih s h
        exact ⟨p :: l₁, q, l₂, rfl,
          fun r hr => by
            rcases List.mem_cons.mp hr with rfl | hr'
            · rintro ⟨-, e, he', -⟩; rw [hent] at he'; exact Option.noConfusion he'
            · exact hl₁ r hr',
          hq, he⟩
      · rw [hent] at h
        dsimp only at h
        by_cases hcl : alreadyClosed data e.entry_index e.entry_price
            (p.type == "bullish") = true
        · rw [if_pos hcl] at h
          obtain ⟨l₁, q, l₂, rfl, hl₁, hq, he⟩ := ih s h
          exact ⟨p :: l₁, q, l₂, rfl,
            fun r hr => by
              rcases List.mem_cons.mp hr with rfl | hr'
              · rintro ⟨-, e', he', hcl'⟩
                rw [hent] at he'
                obtain rfl := Option.some_injective _ he'
                rw [hcl] at hcl'
                exact Bool.noConfusion hcl'
              · exact hl₁ r hr',
            hq, he⟩
        · rw [if_neg hcl] at h
          obtain rfl := (Option.some_injective _ h).symm
          exact ⟨[], p, rest, rfl, fun r hr => absurd hr (List.not_mem_nil r),
            ⟨hd, e, hent, Bool.not_eq_true _ ▸ hcl⟩,
            e, hent, rfl⟩

theorem sortedPatterns_pairwise (l : List Pattern) :
    (l.mergeSort byBreakDateDesc).Pairwise
      (fun a b => b.break_date ≤ a.break_date) := by
  have h := @List.sorted_mergeSort Pattern byBreakDateDesc
    (fun a b c h1 h2 => by
      simp only [byBreakDateDesc, decide_eq_true_eq] at h1 h2 ⊢
      exact le_trans h2 h1)
    (fun a b => by
      simp only [byBreakDateDesc, Bool.or_eq_true, decide_eq_true_eq]
      exact le_total b.break_date a.break_date)
    l
  exact h.imp (fun hab => by
    simpa only [byBreakDateDesc, decide_eq_true_eq] using hab)

/-! ### Claim theorems -/

/-- Claim C1: for every price series, period and flag, `find_swing_points`
returns exactly the indices `i` with `period ≤ i < n - period` whose value
(high for tops, low for bottoms) is strictly greater (tops) or strictly less
(bottoms) than all `2·period` neighbors at offsets `1..period` on both
sides; each reported point carries that extreme value; the result is in
ascending index order. -/
theorem spec_C1_swing_points_exact (data : List Bar) (period : ℕ) (ft : Bool) :
    (∀ i : ℕ,
      (∃ sp ∈ find_swing_points data period ft, sp.index = i) ↔
        (period ≤ i ∧ i + period < data.length ∧
          ∀ j, 1 ≤ j → j ≤ period →
            (if ft then
              (swingPrices data ft).getD (i - j) 0 < (swingPrices data ft).getD i 0 ∧
              (swingPrices data ft).getD (i + j) 0 < (swingPrices data ft).getD i 0
            else
              (swingPrices data ft).getD i 0 < (swingPrices data ft).getD (i - j) 0 ∧
              (swingPrices data ft).getD i 0 < (swingPrices data ft).getD (i + j) 0))) ∧
    (∀ sp ∈ find_swing_points data period ft,
      sp.price = (swingPrices data ft).getD sp.index 0) ∧
    (find_swing_points data period ft).Pairwise (fun a b => a.index < b.index) := by
  refine ⟨fun i => ?_,
    fun sp hsp => (find_swing_points_fields data period ft sp hsp).1,
    find_swing_points_pairwise data period ft⟩
  rw [mem_find_swing_points_index, isSwingAt_iff]

/-- Witness for C1 on the concrete series: index 25 (the head spike) is
reported as a swing top of `exData`. -/
theorem spec_C1_witness : ∃ sp ∈ find_swing_points exData 5 true, sp.index = 25 :=
  ((spec_C1_swing_points_exact exData 5 true).1 25).mpr (by decide)

/-- Claim C2: every pattern emitted by `detect_hs` with `bearish = true`
has its head more than 5% above both shoulders and shoulder prices within
15% of the left shoulder; with `bearish = false` the mirror holds; in both
cases the neckline is the mean of the two valley prices. -/
theorem spec_C2_pattern_geometry (data : List Bar) (bearish : Bool)
    (p : Pattern) (hp : p ∈ detect_hs data bearish) :
    (bearish = true →
      p.head.price > p.left_shoulder.price * 1.05 ∧
      p.head.price > p.right_shoulder.price * 1.05 ∧
      |p.left_shoulder.price - p.right_shoulder.price| / p.left_shoulder.price
        < 0.15) ∧
    (bearish = false →
      p.head.price < p.left_shoulder.price * 0.95 ∧
      p.head.price < p.right_shoulder.price * 0.95 ∧
      |p.left_shoulder.price - p.right_shoulder.price| / p.left_shoulder.price
        < 0.15) ∧
    p.neckline = (p.left_valley.price + p.right_valley.price) / 2 := by
  obtain ⟨i, hi, hc⟩ := mem_detect_hs hp
  obtain ⟨hg, -, hls, hh, hrs, hlv, hrv, hneck, -, -, -, -⟩ := hsCandidate_eq_some hc
  rw [← hls, ← hh, ← hrs] at hg
  rw [← hlv, ← hrv] at hneck
  have e105 : (1 + HEAD_MIN_DIFF : ℚ) = 1.05 := by norm_num [HEAD_MIN_DIFF]
  have e095 : (1 - HEAD_MIN_DIFF : ℚ) = 0.95 := by norm_num [HEAD_MIN_DIFF]
  have etol : (SHOULDER_TOL : ℚ) = 0.15 := by norm_num [SHOULDER_TOL]
  refine ⟨fun hb => ?_, fun hb => ?_, hneck⟩
  · subst hb
    unfold geomValid at hg
    rw [if_pos rfl, e105, etol] at hg
    simp only [Bool.and_eq_true, decide_eq_true_eq] at hg
    exact ⟨hg.1.1, hg.1.2, hg.2⟩
  · subst hb
    unfold geomValid at hg
    rw [if_neg (by simp), e095, etol] at hg
    simp only [Bool.and_eq_true, decide_eq_true_eq] at hg
    exact ⟨hg.1.1, hg.1.2, hg.2⟩

unseal Rat.mul Rat.inv Rat.add Rat.sub Rat.ofScientific in
/-- Witness for C2 on the concrete series and its emitted bearish pattern. -/
theorem spec_C2_witness :
    exPattern.head.price > exPattern.left_shoulder.price * 1.05 :=
  ((spec_C2_pattern_geometry exData true exPattern (by decide)).1 rfl).1

/-- Claim C3: every emitted pattern's `break_index` lies strictly after the
right shoulder and strictly before `right_shoulder.index + NECKLINE_WINDOW`
clamped to the series length, its close crosses the neckline in the
pattern's direction, no earlier session in the search range crosses it, and
a geometrically valid candidate with no crossing anywhere in the window
yields no pattern. -/
theorem spec_C3_break_confirmation :
    (∀ (data : List Bar) (bearish : Bool) (p : Pattern),
      p ∈ detect_hs data bearish →
      p.right_shoulder.index < p.break_index ∧
      p.break_index < min (p.right_shoulder.index + NECKLINE_WINDOW) data.length ∧
      crossesNeckline bearish p.neckline
        ((data.map Bar.close).getD p.break_index 0) = true ∧
      (∀ m, p.right_shoulder.index < m → m < p.break_index →
        crossesNeckline bearish p.neckline
          ((data.map Bar.close).getD m 0) = false)) ∧
    (∀ (data : List Bar) (bearish : Bool) (ls lv h rv rs : SwingPoint),
      geomValid bearish ls h rs = true →
      (∀ m, rs.index < m → m < min (rs.index + NECKLINE_WINDOW) data.length →
        crossesNeckline bearish ((lv.price + rv.price) / 2)
          ((data.map Bar.close).getD m 0) = false) →
      hsCandidate data bearish ls lv h rv rs = none) := by
  constructor
  · intro data bearish p hp
    obtain ⟨i, hi, hc⟩ := mem_detect_hs hp
    obtain ⟨-, -, -, -, hrs, -, -, hneck, hfb, -, -, -⟩ := hsCandidate_eq_some hc
    rw [← hrs] at hfb
    rw [← hneck] at hfb
    unfold findBreak at hfb
    obtain ⟨h1, h2, h3, h4⟩ :=
      findBreakFrom_eq_some _ bearish p.neckline _ _ _ hfb
    have hlen : (data.map Bar.close).length = data.length := List.length_map _ _
    refine ⟨by omega, by rw [hlen] at h2; omega, h3, fun m hm1 hm2 => ?_⟩
    exact h4 m (by omega) hm2
  · intro data bearish ls lv h rv rs hg hnone
    unfold hsCandidate
    rw [if_pos hg]
    have hfb : findBreak (data.map Bar.close) bearish
        ((lv.price + rv.price) / 2) rs.index = none := by
      unfold findBreak
      rw [findBreakFrom_eq_none]
      intro m hm1 hm2
      have hlen : (data.map Bar.close).length = data.length := List.length_map _ _
      exact hnone m (by omega) (by rw [← hlen]; omega)
    rw [hfb]
    rfl

unseal Rat.mul Rat.inv Rat.add Rat.sub Rat.ofScientific in
/-- Witness for C3 on the concrete series: its emitted pattern satisfies
the break invariants. -/
theorem spec_C3_witness :
    exPattern.right_shoulder.index < exPattern.break_index :=
  ((spec_C3_break_confirmation).1 exData true exPattern (by decide)).1

unseal Rat.mul Rat.inv Rat.add Rat.sub Rat.ofScientific in
/-- Counterexample to C4 as stated: in the emitted pattern of the concrete
series the right shoulder (5th swing, index 45) comes after the right
valley (4th swing, index 35), so the order left_shoulder, left_valley,
head, right_shoulder, right_valley is not ascending. -/
theorem spec_C4_counterexample :
    ¬ (∀ p ∈ detect_hs exData true,
        p.left_shoulder.index < p.left_valley.index ∧
        p.left_valley.index < p.head.index ∧
        p.head.index < p.right_shoulder.index ∧
        p.right_shoulder.index < p.right_valley.index) := by decide

/-- Claim C4, amended: the five swing points of every emitted pattern are
in strict ascending index order when taken as left_shoulder, left_valley,
head, right_valley, right_shoulder (the right valley is the 4th swing and
the right shoulder the 5th). -/
theorem spec_C4_swing_order (data : List Bar) (bearish : Bool)
    (p : Pattern) (hp : p ∈ detect_hs data bearish) :
    p.left_shoulder.index < p.left_valley.index ∧
    p.left_valley.index < p.head.index ∧
    p.head.index < p.right_valley.index ∧
    p.right_valley.index < p.right_shoulder.index := by
  obtain ⟨i, hi, hc⟩ := mem_detect_hs hp
  obtain ⟨-, -, hls, hh, hrs, hlv, hrv, -, -, -, -, -⟩ := hsCandidate_eq_some hc
  have hpw := find_swing_points_pairwise data SWING_PERIOD bearish
  rw [List.pairwise_iff_getElem] at hpw
  have hd : ∀ (n : ℕ)
      (hn : n < (find_swing_points data SWING_PERIOD bearish).length),
      (find_swing_points data SWING_PERIOD bearish).getD n default =
        (find_swing_points data SWING_PERIOD bearish)[n] := by
    intro n hn
    rw [List.getD_eq_getElem?_getD, List.getElem?_eq_getElem hn]
    rfl
  rw [hls, hh, hrs, hlv, hrv,
    hd i (by omega), hd (i + 1) (by omega), hd (i + 2) (by omega),
    hd (i + 3) (by omega), hd (i + 4) (by omega)]
  refine ⟨?_, ?_, ?_, ?_⟩ <;>
    exact hpw _ _ (by omega) (by omega) (by omega)

unseal Rat.mul Rat.inv Rat.add Rat.sub Rat.ofScientific in
/-- Witness for the amended C4 on the concrete series. -/
theorem spec_C4_witness :
    exPattern.right_valley.index < exPattern.right_shoulder.index :=
  (spec_C4_swing_order exData true exPattern (by decide)).2.2.2

/-- Claim C5: the liveness replay declares a trade already closed iff some
close strictly after the entry index reaches-or-passes the stop level or
the take-profit level (bullish: `close ≤ entry·(1 − 3.5/100)` or
`close ≥ entry·(1 + 9/100)`; bearish mirrored, comparisons inclusive), and
live iff every such close stays strictly between the two levels. -/
theorem spec_C5_liveness (data : List Bar) (entry_index : ℕ)
    (entry_price : ℚ) (is_bullish : Bool) :
    (alreadyClosed data entry_index entry_price is_bullish = true ↔
      ∃ idx, entry_index < idx ∧ idx < data.length ∧
        (if is_bullish then
          ((data.getD idx default).close ≤ entry_price * (1 - STOP_LOSS_PCT / 100) ∨
           entry_price * (1 + TAKE_PROFIT_PCT / 100) ≤ (data.getD idx default).close)
        else
          (entry_price * (1 + STOP_LOSS_PCT / 100) ≤ (data.getD idx default).close ∨
           (data.getD idx default).close ≤ entry_price * (1 - TAKE_PROFIT_PCT / 100)))) ∧
    (alreadyClosed data entry_index entry_price is_bullish = false ↔
      ∀ idx, entry_index < idx → idx < data.length →
        (if is_bullish then
          (entry_price * (1 - STOP_LOSS_PCT / 100) < (data.getD idx default).close ∧
           (data.getD idx default).close < entry_price * (1 + TAKE_PROFIT_PCT / 100))
        else
          (entry_price * (1 - TAKE_PROFIT_PCT / 100) < (data.getD idx default).close ∧
           (data.getD idx default).close < entry_price * (1 + STOP_LOSS_PCT / 100)))) := by
  have h1 := alreadyClosed_eq_true_iff data entry_index entry_price is_bullish
  constructor
  · rw [h1]
    cases is_bullish <;> simp [mainStopLevel, mainTpLevel]
  · rw [← Bool.not_eq_true, h1]
    push_neg
    cases is_bullish <;>
      simp only [mainStopLevel, mainTpLevel, if_true, if_false,
        Bool.false_eq_true, not_or, not_le] <;>
      exact forall_congr' (fun idx => by tauto)

unseal Rat.mul Rat.inv Rat.add Rat.sub Rat.ofScientific in
/-- Witness for C5: the concrete series' trade after `exEntry` is live
(every later close is 60, strictly between 54.6 and 62.1). -/
theorem spec_C5_witness :
    alreadyClosed exData exEntry.entry_index exEntry.entry_price false = false := by
  refine ((spec_C5_liveness exData exEntry.entry_index
    exEntry.entry_price false).2).mpr ?_
  have hbound : ∀ idx, idx < 70 → 48 < idx →
      exEntry.entry_price * (1 - TAKE_PROFIT_PCT / 100) <
        (exData.getD idx default).close ∧
      (exData.getD idx default).close <
        exEntry.entry_price * (1 + STOP_LOSS_PCT / 100) := by decide
  intro idx h1 h2
  have h70 : idx < 70 := by
    have hlen : exData.length = 70 := by decide
    omega
  have h48 : 48 < idx := by
    have hidx : exEntry.entry_index = 48 := rfl
    omega
  simpa using hbound idx h70 h48

unseal Rat.mul Rat.inv Rat.add Rat.sub Rat.ofScientific in
/-- Counterexample to C6 as stated: `generate_signal` rounds the published
stop-loss to 4 decimals, so at entry price 1/1000 on a bullish pattern the
returned stop-loss (0.001) differs from the exact formula value
`entry − entry·3.5/100 = 0.000965`. -/
theorem spec_C6_counterexample :
    (generate_signal "T" rtPattern tinyEntry).stop_loss ≠
      tinyEntry.entry_price - tinyEntry.entry_price * (STOP_LOSS_PCT / 100) := by
  decide

unseal Rat.mul Rat.inv Rat.add Rat.sub Rat.ofScientific in
/-- Claim C6, amended: `generate_signal` returns BUY for bullish and SELL
for bearish patterns; the published stop-loss and take-profit are the
claimed formulas rounded to 4 decimals at the output boundary (exactly the
formula values whenever those have at most 4 decimals); `height_pct` is the
claimed ratio rounded to 2 decimals; confidence is computed from the
unrounded ratio, `high` iff it exceeds 5; at entry 108 on a bullish pattern
the outputs are exactly BUY, 108, 104.22 and 117.72. -/
theorem spec_C6_generate_signal (ticker : String) (pattern : Pattern)
    (entry : Entry) :
    (pattern.type = "bullish" →
      (generate_signal ticker pattern entry).signal_type = "BUY" ∧
      (generate_signal ticker pattern entry).stop_loss =
        round4 (entry.entry_price - entry.entry_price * (STOP_LOSS_PCT / 100)) ∧
      (generate_signal ticker pattern entry).take_profit =
        round4 (entry.entry_price + entry.entry_price * (TAKE_PROFIT_PCT / 100))) ∧
    (pattern.type = "bearish" →
      (generate_signal ticker pattern entry).signal_type = "SELL" ∧
      (generate_signal ticker pattern entry).stop_loss =
        round4 (entry.entry_price + entry.entry_price * (STOP_LOSS_PCT / 100)) ∧
      (generate_signal ticker pattern entry).take_profit =
        round4 (entry.entry_price - entry.entry_price * (TAKE_PROFIT_PCT / 100))) ∧
    (generate_signal ticker pattern entry).height_pct =
      round2 (pattern.pattern_height / pattern.head.price * 100) ∧
    ((generate_signal ticker pattern entry).confidence = "high" ↔
      pattern.pattern_height / pattern.head.price * 100 > 5) ∧
    ((generate_signal ticker pattern entry).confidence = "high" ∨
      (generate_signal ticker pattern entry).confidence = "medium") ∧
    ((generate_signal "T" rtPattern rtEntry).signal_type = "BUY" ∧
     (generate_signal "T" rtPattern rtEntry).entry_price = 108 ∧
     (generate_signal "T" rtPattern rtEntry).stop_loss = 104.22 ∧
     (generate_signal "T" rtPattern rtEntry).take_profit = 117.72) := by
  refine ⟨fun hb => ?_, fun hb => ?_, ?_, ?_, ?_, by decide⟩
  · have hbeq : (pattern.type == "bullish") = true := by
      rw [hb]; rfl
    unfold generate_signal sigStopLoss sigTakeProfit
    rw [hbeq]
    exact ⟨rfl, rfl, rfl⟩
  · have hbeq : (pattern.type == "bullish") = false := by
      rw [hb]; rfl
    unfold generate_signal sigStopLoss sigTakeProfit
    rw [hbeq]
    exact ⟨rfl, rfl, rfl⟩
  · rfl
  · have hcs : (generate_signal ticker pattern entry).confidence =
        (if 5 < pattern.pattern_height / pattern.head.price * 100
          then "high" else "medium") := rfl
    rw [hcs]
    by_cases hconf : (5 : ℚ) < pattern.pattern_height / pattern.head.price * 100
    · rw [if_pos hconf]
      exact ⟨fun _ => hconf, fun _ => rfl⟩
    · rw [if_neg hconf]
      exact ⟨fun hmed => absurd hmed (by decide), fun hgt => absurd hgt hconf⟩
  · have hcs : (generate_signal ticker pattern entry).confidence =
        (if 5 < pattern.pattern_height / pattern.head.price * 100
          then "high" else "medium") := rfl
    rw [hcs]
    by_cases hconf : (5 : ℚ) < pattern.pattern_height / pattern.head.price * 100
    · rw [if_pos hconf]; left; rfl
    · rw [if_neg hconf]; right; rfl

/-- Witness for the amended C6: the round-trip example produces a BUY at
the claimed exact levels. -/
theorem spec_C6_witness :
    (generate_signal "T" rtPattern rtEntry).signal_type = "BUY" ∧
    (generate_signal "T" rtPattern rtEntry).stop_loss = 104.22 :=
  ⟨((spec_C6_generate_signal "T" rtPattern rtEntry).1 rfl).1,
   (spec_C6_generate_signal "T" rtPattern rtEntry).2.2.2.2.2.2.2.1⟩

/-- Claim C7: per instrument, `scanTicker` emits at most one signal (an
`Option`); the candidates of both directions are merged and sorted by
break date descending, and the emitted signal comes from the first
candidate in that order that is recent, has an entry and is still live;
everything before it in the sorted order fails one of those tests and
everything after it breaks no later. -/
theorem spec_C7_single_signal (ticker : String) (data : List Bar)
    (recent_cutoff : ℤ) (s : Signal)
    (hs : scanTicker ticker data recent_cutoff = some s) :
    50 ≤ data.length ∧
    ∃ l₁ p l₂,
      (detect_hs data true ++ detect_hs data false).mergeSort byBreakDateDesc
        = l₁ ++ p :: l₂ ∧
      (∀ q ∈ l₁, ¬ qualifies data recent_cutoff q) ∧
      qualifies data recent_cutoff p ∧
      (∀ q ∈ l₂, q.break_date ≤ p.break_date) ∧
      ∃ e, simulate_entry p data = some e ∧
        s = generate_signal ticker p e := by
  unfold scanTicker at hs
  by_cases hlen : data.length < 50
  · rw [if_pos hlen] at hs; exact absurd hs (by simp)
  · rw [if_neg hlen] at hs
    obtain ⟨l₁, p, l₂, hsplit, hl₁, hq, he⟩ :=
      pickSignal_eq_some ticker data recent_cutoff _ s hs
    have hsort := sortedPatterns_pairwise
      (detect_hs data true ++ detect_hs data false)
    rw [hsplit] at hsort
    have htail := (List.pairwise_cons.mp
      ((List.pairwise_append.mp hsort).2.1)).1
    exact ⟨by omega, l₁, p, l₂, hsplit, hl₁, hq, htail, he⟩

unseal List.merge List.mergeSort Rat.mul Rat.inv Rat.add Rat.sub Rat.ofScientific in
/-- Witness for C7: on the concrete series with cutoff 40 a signal is
emitted, and the history-length premise follows from the theorem. -/
theorem spec_C7_witness :
    ∃ s, scanTicker "T" exData 40 = some s ∧ 50 ≤ exData.length :=
  ⟨generate_signal "T" exPattern exEntry, rfl,
    (spec_C7_single_signal "T" exData 40 (generate_signal "T" exPattern exEntry)
      rfl).1⟩

/-- Claim C8: `simulate_entry` returns the session after the break (its
close as entry price) when `break_index + 1` is a valid index, and `none`
exactly when `break_index + 1` is past the end of the series. -/
theorem spec_C8_simulate_entry (pattern : Pattern) (data : List Bar) :
    (pattern.break_index + 1 < data.length →
      simulate_entry pattern data = some
        { entry_price := (data.getD (pattern.break_index + 1) default).close,
          entry_date := (data.getD (pattern.break_index + 1) default).date,
          entry_index := pattern.break_index + 1 }) ∧
    (data.length ≤ pattern.break_index + 1 →
      simulate_entry pattern data = none) := by
  unfold simulate_entry
  constructor
  · intro h; rw [if_neg (by omega)]
  · intro h; rw [if_pos h]

/-- Witness for C8: on the concrete series the entry after the break at
session 47 is session 48 with close 60; and on a truncated series whose
last session is the break itself, the entry is absent. -/
theorem spec_C8_witness :
    simulate_entry exPattern exData = some exEntry ∧
    simulate_entry exPattern (exData.take 48) = none :=
  ⟨((spec_C8_simulate_entry exPattern exData).1 (by decide)).trans (by decide),
   (spec_C8_simulate_entry exPattern (exData.take 48)).2 (by decide)⟩

/-- Claim C9: the stop and take-profit levels used by the liveness check
in `main` equal, in exact arithmetic, the (pre-rounding) levels computed
by `generate_signal` for the same entry price and direction. -/
theorem spec_C9_levels_coincide (entry_price : ℚ) (is_bullish : Bool) :
    mainStopLevel entry_price is_bullish = sigStopLoss entry_price is_bullish ∧
    mainTpLevel entry_price is_bullish = sigTakeProfit entry_price is_bullish := by
  cases is_bullish <;>
    constructor <;>
    simp only [mainStopLevel, mainTpLevel, sigStopLoss, sigTakeProfit,
      if_true, if_false, Bool.false_eq_true] <;>
    ring

/-- Claim C10: with every high and low in the series strictly positive,
every swing point of either kind has nonzero price, so the left-shoulder
divisor of every candidate window evaluated by `detect_hs` and the head
divisor used by `generate_signal` on every emitted pattern are nonzero. -/
theorem spec_C10_divisors_nonzero (data : List Bar)
    (hpos : ∀ b ∈ data, 0 < b.high ∧ 0 < b.low) :
    (∀ (ft : Bool), ∀ sp ∈ find_swing_points data SWING_PERIOD ft,
      sp.price ≠ 0) ∧
    (∀ (bearish : Bool) (i : ℕ),
      i + 4 < (find_swing_points data SWING_PERIOD bearish).length →
      ((find_swing_points data SWING_PERIOD bearish).getD i default).price ≠ 0) ∧
    (∀ (bearish : Bool) (p : Pattern), p ∈ detect_hs data bearish →
      p.left_shoulder.price ≠ 0 ∧ p.head.price ≠ 0) := by
  have key : ∀ (ft : Bool), ∀ sp ∈ find_swing_points data SWING_PERIOD ft,
      0 < sp.price := by
    intro ft sp hsp
    obtain ⟨hprice, -, -, hlt, -⟩ :=
      find_swing_points_fields data SWING_PERIOD ft sp hsp
    have hidx : sp.index < data.length := by
      have : (0 : ℕ) < SWING_PERIOD := by decide
      omega
    rw [hprice]
    unfold swingPrices
    rw [getD_map_of_lt _ _ _ _ hidx]
    have hmem : data.getD sp.index default ∈ data := by
      rw [List.getD_eq_getElem?_getD, List.getElem?_eq_getElem hidx]
      exact List.getElem_mem hidx
    obtain ⟨hh, hl⟩ := hpos _ hmem
    cases ft
    · exact hl
    · exact hh
  have keyD : ∀ (ft : Bool) (i : ℕ),
      i < (find_swing_points data SWING_PERIOD ft).length →
      0 < ((find_swing_points data SWING_PERIOD ft).getD i default).price := by
    intro ft i hilt
    apply key ft
    rw [List.getD_eq_getElem?_getD, List.getElem?_eq_getElem hilt]
    exact List.getElem_mem hilt
  refine ⟨fun ft sp hsp => (key ft sp hsp).ne',
    fun bearish i hi => (keyD bearish i (by omega)).ne', fun bearish p hp => ?_⟩
  obtain ⟨i, hi, hc⟩ := mem_detect_hs hp
  obtain ⟨-, -, hls, hh, -, -, -, -, -, -, -, -⟩ := hsCandidate_eq_some hc
  constructor
  · rw [hls]; exact (keyD bearish i (by omega)).ne'
  · rw [hh]; exact (keyD bearish (i + 2) (by omega)).ne'

unseal Rat.mul Rat.inv Rat.add Rat.sub Rat.ofScientific in
/-- Witness for C10: the concrete series has positive highs and lows and
its emitted pattern's head price is nonzero. -/
theorem spec_C10_witness :
    (∀ b ∈ exData, 0 < b.high ∧ 0 < b.low) ∧ exPattern.head.price ≠ 0 :=
  ⟨by decide,
   ((spec_C10_divisors_nonzero exData (by decide)).2.2 true exPattern
     (by decide)).2⟩

end ScanSignals
